import Mathlib

/-!
Verification development for the Recommendle backend core
(`backend/app/category_profiles.py`, `backend/app/ml/prefix_cf.py`,
`backend/app/services/recommender_mongo.py`,
`backend/app/ml/pbcf_nmf_mongo.py`, `backend/app/services/game_service.py`).

The Python code is shallowly embedded: float values are modelled by `ℝ`
(exact arithmetic; the claims settled here do not depend on rounding of
binary floating point), prices and other numeric record fields by `ℚ`,
Python lists by `List`, Python dicts by association lists in insertion
order, and raising `ValueError` by `Except.error`.  Definitions follow the
source functions line by line; comments quote the Python they embed.
-/

/-! ## Small numeric helpers -/

/-- Sum of squares of a vector, `Σ xᵢ²`. -/
def sumSq (l : List ℝ) : ℝ := (l.map (fun x => x * x)).sum

/-- Euclidean norm, embeds `np.linalg.norm(v)` = `sqrt(Σ vᵢ²)`. -/
noncomputable def l2norm (l : List ℝ) : ℝ := Real.sqrt (sumSq l)

/-- Dot product, embeds `np.dot(u, v)` (equal-length arrays in the source;
`zipWith` truncates to the common length). -/
def dotList (u v : List ℝ) : ℝ := (List.zipWith (fun a b => a * b) u v).sum

/-- Embeds Python `min(5.0, max(1.0, x))`. -/
noncomputable def clamp15 (x : ℝ) : ℝ := min 5 (max 1 x)

/-- Model of Python `round(x, 4)`: round `x·10⁴` to the nearest integer and
divide back.  (Python rounds exact halves to even; `round` here rounds halves
up.  The two agree except on exact ties at the fifth decimal, which none of
the claims depends on.) -/
noncomputable def roundTo4 (x : ℝ) : ℝ := ((round (x * 10000) : ℤ) : ℝ) / 10000

/-! ## Item records

One typed record replaces the duck-typed product dicts/objects of the
source.  Absent fields are `none` / `[]`, matching `product.get(field)`
returning `None` / missing keys. -/

structure Item where
  pid : String := ""
  category : Option String := none
  vendor : Option String := none
  productType : Option String := none
  tags : List String := []
  options : List (String × List String) := []
  priceMin : Option ℚ := none
  priceMax : Option ℚ := none
  primaryCountry : Option String := none
  originalLanguage : Option String := none
  certification : Option String := none
  decadeBucket : Option String := none
  runtimeBucket : Option String := none
  genres : List String := []
  keywords : List String := []
  productionCompanies : List String := []
  directors : List String := []
  releaseYear : Option ℚ := none
  runtimeMinutes : Option ℚ := none
  voteAverage : Option ℚ := none
  popularity : Option ℚ := none
deriving DecidableEq

/-- `_value_for_field(product, field)` for the single-valued (categorical)
fields of the two category profiles. -/
def Item.strField (p : Item) : String → Option String
  | "vendor" => p.vendor
  | "product_type" => p.productType
  | "primary_country" => p.primaryCountry
  | "original_language" => p.originalLanguage
  | "certification" => p.certification
  | "decade_bucket" => p.decadeBucket
  | "runtime_bucket" => p.runtimeBucket
  | _ => none

/-- `_value_for_field(product, field)` for the list-valued (multi) fields.
`options` is dict-valued and handled separately by the extractor. -/
def Item.listField (p : Item) : String → List String
  | "tags" => p.tags
  | "genres" => p.genres
  | "keywords" => p.keywords
  | "production_companies" => p.productionCompanies
  | "directors" => p.directors
  | _ => []

/-- `_value_for_field(product, field)` for the numeric fields. -/
def Item.numField (p : Item) : String → Option ℚ
  | "price_min" => p.priceMin
  | "price_max" => p.priceMax
  | "release_year" => p.releaseYear
  | "runtime_minutes" => p.runtimeMinutes
  | "vote_average" => p.voteAverage
  | "popularity" => p.popularity
  | _ => none

/-! ## Category profile registry (`backend/app/category_profiles.py`)

Only the machine-facing fields of `CategoryProfile` are embedded; the
display-copy strings (labels, captions) play no part in any claim. -/

structure CategoryProfile where
  id : String
  categoricalFields : List String
  multiFields : List String
  numericFields : List String
deriving DecidableEq

def fountainPensProfile : CategoryProfile :=
  { id := "fountain_pens"
    categoricalFields := ["vendor", "product_type"]
    multiFields := ["tags", "options"]
    numericFields := ["price_min", "price_max"] }

def moviesProfile : CategoryProfile :=
  { id := "movies"
    categoricalFields :=
      ["vendor", "primary_country", "original_language", "certification",
       "decade_bucket", "runtime_bucket"]
    multiFields := ["genres", "keywords", "production_companies", "directors"]
    numericFields := ["release_year", "runtime_minutes", "vote_average", "popularity"] }

/-- `_CATEGORY_PROFILES`, an insertion-ordered dict. -/
def categoryProfiles : List (String × CategoryProfile) :=
  [("fountain_pens", fountainPensProfile), ("movies", moviesProfile)]

/-- `supported_categories()`. -/
def supportedCategories : List String := categoryProfiles.map Prod.fst

def defaultCategory : String := "fountain_pens"

/-! ### Structural string helpers

`String.toLower`, `String.trim`, `String.replace` and substring search from
core are byte-position based and do not reduce inside the kernel; the
definitions below compute the same functions structurally over the
character list (our inputs are ASCII, where `Char.toLower` agrees with
Python `str.lower()` and `Char.isWhitespace` with `str.strip()`). -/

def strLower (s : String) : String := ⟨s.data.map Char.toLower⟩

def strTrim (s : String) : String :=
  ⟨(((s.data.dropWhile Char.isWhitespace).reverse).dropWhile Char.isWhitespace).reverse⟩

/-- Replace every (non-overlapping, left-to-right) occurrence of `pat`,
exactly like `str.replace`; the character count is enough fuel since every
step consumes at least one character. -/
def replaceChars (pat rep : List Char) : ℕ → List Char → List Char
  | 0, s => s
  | fuel + 1, s =>
    if pat ≠ [] ∧ pat.isPrefixOf s then rep ++ replaceChars pat rep fuel (s.drop pat.length)
    else
      match s with
      | [] => []
      | c :: t => c :: replaceChars pat rep fuel t

def strReplace (s pat rep : String) : String :=
  ⟨replaceChars pat.data rep.data s.data.length s.data⟩

def strStartsWith (s pre : String) : Bool := pre.data.isPrefixOf s.data

def listContainsSub (pat : List Char) : List Char → Bool
  | [] => pat.isPrefixOf []
  | c :: t => pat.isPrefixOf (c :: t) || listContainsSub pat t

/-- `pat in s` on strings. -/
def strContainsSub (s pat : String) : Bool := listContainsSub pat.data s.data

/-- `sep.join(parts)`. -/
def joinSep (sep : String) : List String → String
  | [] => ""
  | [x] => x
  | x :: y :: t => x ++ sep ++ joinSep sep (y :: t)

/-- Code-point lexicographic comparison — the order Python uses to compare
strings (and the order of core `String.lt`) — computed structurally. -/
def charListLt : List Char → List Char → Bool
  | [], [] => false
  | [], _ :: _ => true
  | _ :: _, [] => false
  | a :: as, b :: bs =>
    if a.toNat < b.toNat then true
    else if b.toNat < a.toNat then false
    else charListLt as bs

/-- Non-strict code-point lexicographic order on strings. -/
def strLe (a b : String) : Prop := (charListLt a.data b.data || a == b) = true

instance (a b : String) : Decidable (strLe a b) := by unfold strLe; infer_instance

/-- `normalize_category(value)`: `None` defaults to `fountain_pens`;
otherwise strip + lowercase and require membership in the registry,
raising `ValueError(f"Unsupported category ...")` on anything else
(including the empty string, which is not `None` and not a key). -/
def normalizeCategory (value : Option String) : Except String String :=
  match value with
  | none => Except.ok defaultCategory
  | some v =>
    let normalized := strLower (strTrim v)
    if normalized ∈ supportedCategories then Except.ok normalized
    else Except.error ("Unsupported category " ++ v)

/-- `get_category_profile(category)`. -/
def getCategoryProfile (category : Option String) : Except String CategoryProfile := do
  let n ← normalizeCategory category
  match (categoryProfiles.find? (fun kv => kv.fst == n)) with
  | some kv => pure kv.snd
  | none => Except.error ("Unsupported category " ++ n)

/-- One step of the `while "  " in text: text = text.replace("  ", " ")` loop;
`String.replace` replaces every occurrence, exactly like `str.replace`.  The
loop terminates because each replacement shortens the string, so the length
is enough fuel. -/
def collapseSpaces : ℕ → String → String
  | 0, s => s
  | fuel + 1, s =>
    let t := strReplace s "  " " "
    if t = s then s else collapseSpaces fuel t

/-- `_to_slug(value)` on a string value: strip, lowercase, `/`→space,
`&`→" and ", collapse runs of spaces. -/
def toSlug (value : String) : String :=
  let text := strReplace (strReplace (strLower (strTrim value)) "/" " ") "&" " and "
  collapseSpaces text.length text

/-- `_to_slug` lifted to optional values (`None` slugs to `""`). -/
def toSlugOpt (value : Option String) : String :=
  match value with
  | none => ""
  | some v => toSlug v

/-- Tokens from the categorical fields:
`cat::<profile>::cat::<field>::<slug>` when the slug is nonempty. -/
def categoricalTokens (profile : CategoryProfile) (p : Item) : List String :=
  profile.categoricalFields.flatMap fun field =>
    let slug := toSlugOpt (p.strField field)
    if slug = "" then [] else ["cat::" ++ profile.id ++ "::cat::" ++ field ++ "::" ++ slug]

/-- Tokens from one multi field.  `options` (a dict of option name to value
list) emits `cat::<profile>::multi::option::<opt>|<value>`; every other
multi field emits `cat::<profile>::multi::<field>::<slug>` per element. -/
def multiTokensFor (profile : CategoryProfile) (p : Item) (field : String) : List String :=
  if field = "options" then
    p.options.flatMap fun ov =>
      let optSlug := toSlug ov.fst
      if optSlug = "" then []
      else ov.snd.flatMap fun optValue =>
        let valueSlug := toSlug optValue
        if valueSlug = "" then []
        else ["cat::" ++ profile.id ++ "::multi::option::" ++ optSlug ++ "|" ++ valueSlug]
  else
    (p.listField field).flatMap fun item =>
      let slug := toSlug item
      if slug = "" then [] else ["cat::" ++ profile.id ++ "::multi::" ++ field ++ "::" ++ slug]

/-- The numeric bucket: `cat::<profile>::num::<field>_z ↦ float(value)` for
every present numeric field (our numeric record fields are already rational,
so the `float(value)` conversion never fails here). -/
def numericValues (profile : CategoryProfile) (p : Item) : List (String × ℚ) :=
  profile.numericFields.flatMap fun field =>
    match p.numField field with
    | none => []
    | some q => [("cat::" ++ profile.id ++ "::num::" ++ field ++ "_z", q)]

/-- `extract_feature_tokens(product, category)` → `(tokens, numeric_values)`;
propagates the `ValueError` of `get_category_profile`. -/
def extractFeatureTokens (p : Item) (category : Option String) :
    Except String (List String × List (String × ℚ)) := do
  let profile ← getCategoryProfile category
  let tokens := categoricalTokens profile p ++
    profile.multiFields.flatMap (multiTokensFor profile p)
  pure (tokens, numericValues profile p)

/-- `is_numeric_feature_key(raw)`. -/
def isNumericFeatureKey (raw : String) : Bool := strContainsSub raw "::num::"

/-! ## Feature space (`backend/app/ml/prefix_cf.py`, class `FeatureSpace`)

The `FeatureSpace` shipped under `backend/app/ml/prefix_cf.py` builds the
*legacy* single-category keys (`vendor::`, `type::`, `tag::`, `opt::`,
`price_min_z`, `price_max_z`) and a single pooled `(mean_price, std_price)`
pair; it never consults `extract_feature_tokens`. -/

/-- `add_feature(name)`: append to the insertion-ordered index if new. -/
def addFeature (idx : List String) (name : String) : List String :=
  if name ∈ idx then idx else idx ++ [name]

/-- The feature names one product contributes in `FeatureSpace.build`
(and, identically, the keys `vectorize` writes 1.0 to), in source order:
`if vendor: add(f"vendor::{vendor.lower()}")`, `if product_type: ...`,
one `tag::` per tag, one `opt::<name>::<value>` per option value.
Python truthiness makes the empty string skip like `None`. -/
def legacyTokens (p : Item) : List String :=
  (match p.vendor with
   | some v => if v = "" then [] else ["vendor::" ++ strLower v]
   | none => []) ++
  (match p.productType with
   | some t => if t = "" then [] else ["type::" ++ strLower t]
   | none => []) ++
  p.tags.map (fun tag => "tag::" ++ strLower tag) ++
  (p.options.flatMap fun ov =>
    ov.snd.map fun value => "opt::" ++ strLower ov.fst ++ "::" ++ strLower value)

/-- The pooled price samples of `build`: per product, `price_min` then
`price_max` when present. -/
def legacyPrices (products : List Item) : List ℚ :=
  products.flatMap fun p =>
    (match p.priceMin with | some q => [q] | none => []) ++
    (match p.priceMax with | some q => [q] | none => [])

/-- The insertion-ordered feature index of `build`: all product tokens in
catalog order, then `price_min_z` and `price_max_z`. -/
def buildFeatureIndex (products : List Item) : List String :=
  addFeature
    (addFeature
      (products.foldl (fun idx p => (legacyTokens p).foldl addFeature idx) [])
      "price_min_z")
    "price_max_z"

/-- `np.mean(prices) if prices else 0.0`. -/
def meanOf (prices : List ℚ) : ℚ :=
  if prices = [] then 0 else prices.sum / prices.length

/-- The variance `np.std(prices)²` (population variance, as NumPy computes
it), with the `if prices else 1.0` guard folded in as variance 1. -/
def varOf (prices : List ℚ) : ℚ :=
  if prices = [] then 1
  else ((prices.map (fun x => (x - meanOf prices) * (x - meanOf prices))).sum) / prices.length

structure FeatureSpace where
  featureIndex : List String
  meanPrice : ℚ
  stdPrice : ℝ

/-- `std_price = float(np.std(prices)) if prices else 1.0; if std_price == 0:
std_price = 1.0`.  `np.std` is the square root of `varOf`, and the square
root vanishes exactly when the variance does. -/
noncomputable def stdOf (prices : List ℚ) : ℝ :=
  if varOf prices = 0 then 1 else Real.sqrt (varOf prices)

/-- `FeatureSpace.build(products)`. -/
noncomputable def FeatureSpace.build (products : List Item) : FeatureSpace :=
  { featureIndex := buildFeatureIndex products
    meanPrice := meanOf (legacyPrices products)
    stdPrice := stdOf (legacyPrices products) }

/-- The `(key, value)` writes `vectorize` performs, in order: 1.0 for every
token, then the price z-scores `(price − mean_price) / std_price`. -/
noncomputable def vectorizeWrites (fs : FeatureSpace) (p : Item) : List (String × ℝ) :=
  (legacyTokens p).map (fun k => (k, (1 : ℝ))) ++
  (match p.priceMin with
   | some q => [("price_min_z", ((q : ℝ) - (fs.meanPrice : ℝ)) / fs.stdPrice)]
   | none => []) ++
  (match p.priceMax with
   | some q => [("price_max_z", ((q : ℝ) - (fs.meanPrice : ℝ)) / fs.stdPrice)]
   | none => [])

/-- `FeatureSpace.vectorize(product)`: a zero vector of width
`len(feature_index)`; `set_feature` writes only keys present in the index,
and a later write to the same index wins. -/
noncomputable def FeatureSpace.vectorize (fs : FeatureSpace) (p : Item) : List ℝ :=
  fs.featureIndex.map fun k =>
    match ((vectorizeWrites fs p).reverse.find? (fun w => w.fst == k)) with
    | some w => w.snd
    | none => 0

/-! ## PCF online model (`backend/app/ml/prefix_cf.py`, class `PrefixCFModel`) -/

structure PCFState where
  userVec : List ℝ
  bias : ℝ
  count : ℕ
  exceptionWeight : ℝ
  decay : ℝ

/-- `init_state()`. -/
def initState (fs : FeatureSpace) : PCFState :=
  { userVec := List.replicate fs.featureIndex.length 0
    bias := 0
    count := 0
    exceptionWeight := 0.35
    decay := 0.85 }

/-- `update_with_selection(state, product, is_exception)`:
`user_vec ← decay · user_vec + w · vectorize(product)`, `count ← count + 1`. -/
noncomputable def updateWithSelection (fs : FeatureSpace) (st : PCFState)
    (p : Item) (isException : Bool) : PCFState :=
  let vec := fs.vectorize p
  let weight : ℝ := if isException then st.exceptionWeight else 1
  { st with
    userVec := List.zipWith (fun u v => st.decay * u + weight * v) st.userVec vec
    count := st.count + 1 }

/-- `predict_prefix_rating(state)` =
`min(5, max(1, 3.0 + 1.5 * tanh(norm(user_vec) / 3.0) + bias))`. -/
noncomputable def predictPrefixRating (st : PCFState) : ℝ :=
  clamp15 (3 + 1.5 * Real.tanh (l2norm st.userVec / 3) + st.bias)

/-- `update_with_prefix_rating(state, rating)`:
`bias ← bias + 0.25 * (rating − predict_prefix_rating(state))`. -/
noncomputable def updateWithPrefixRating (st : PCFState) (rating : ℤ) : PCFState :=
  { st with bias := st.bias + 0.25 * ((rating : ℝ) - predictPrefixRating st) }

/-- `score_item(state, item_vec)`: cosine similarity against the user
vector (0 when the norm product is not positive), then
`min(5, max(1, 3.0 + 1.7 * similarity + bias))`. -/
noncomputable def scoreItem (st : PCFState) (itemVec : List ℝ) : ℝ :=
  let denom := l2norm st.userVec * l2norm itemVec
  let similarity := if 0 < denom then dotList st.userVec itemVec / denom else 0
  clamp15 (3 + 1.7 * similarity + st.bias)

/-- The unordered index pairs `(i, j)` with `i < j`, in the order the double
loop of `coherence_score` visits them. -/
def pairsOf {α : Type} : List α → List (α × α)
  | [] => []
  | x :: xs => xs.map (fun y => (x, y)) ++ pairsOf xs

/-- The cosine contributions the loop accumulates: pairs whose norm product
is zero are skipped (`continue`) — they enter neither `total` nor `count`. -/
noncomputable def coherenceContribs (itemVecs : List (List ℝ)) : List ℝ :=
  (pairsOf itemVecs).filterMap fun ab =>
    if l2norm ab.fst * l2norm ab.snd = 0 then none
    else some (dotList ab.fst ab.snd / (l2norm ab.fst * l2norm ab.snd))

/-- `coherence_score(item_vecs)`: 0 for fewer than two vectors, 0 when every
pair was skipped, else the pair mean rescaled to `[0,1]` by `(m + 1) / 2`. -/
noncomputable def coherenceScore (itemVecs : List (List ℝ)) : ℝ :=
  if itemVecs.length < 2 then 0
  else
    let contribs := coherenceContribs itemVecs
    if contribs.length = 0 then 0
    else (contribs.sum / contribs.length + 1) / 2

/-- Reference definition following the words of the spec only
("mean pairwise cosine over all unordered pairs", similarity 0 for a
degenerate pair): every pair counts in the denominator. -/
noncomputable def coherenceScoreAllPairs (itemVecs : List (List ℝ)) : ℝ :=
  if itemVecs.length < 2 then 0
  else
    let sims := (pairsOf itemVecs).map fun ab =>
      if l2norm ab.fst * l2norm ab.snd = 0 then 0
      else dotList ab.fst ab.snd / (l2norm ab.fst * l2norm ab.snd)
    (sims.sum / (pairsOf itemVecs).length + 1) / 2

/-! ### Hidden-preference discovery (`PrefixCFModel.detect_hidden_preferences`) -/

/-- `HIDDEN_MIN_WEIGHT` of the shipped `prefix_cf.py`. -/
noncomputable def hiddenMinWeight : ℝ := 0.15

/-- `HIDDEN_MIN_LATENCY`. -/
noncomputable def hiddenMinLatency : ℝ := 0.10

/-- `HIDDEN_MIN_SELECTIONS`. -/
def hiddenMinSelections : ℕ := 3

/-- `abs_vec.max()` over `abs_vec = np.abs(user_vec)` (0 on the empty
vector, where the source would fault; all entries are ≥ 0 so the padding
0 never changes a nonempty maximum). -/
noncomputable def maxAbsVal (l : List ℝ) : ℝ := (l.map (fun x => |x|)).foldr max 0

/-- `pref_weight[i] = abs_vec[i] / max_val`. -/
noncomputable def prefWeightAt (st : PCFState) (i : ℕ) : ℝ :=
  |st.userVec.getD i 0| / maxAbsVal st.userVec

/-- `freq_vec[i]`: the fraction of selected products whose vectorization is
nonzero at feature `i`. -/
noncomputable def freqAt (fs : FeatureSpace) (selected : List Item) (i : ℕ) : ℝ :=
  ((selected.countP (fun p => decide ((fs.vectorize p).getD i 0 ≠ 0))) : ℝ) /
    (selected.length : ℝ)

/-- `latency[i] = pref_weight[i] − freq_vec[i]`. -/
noncomputable def latencyAt (fs : FeatureSpace) (st : PCFState) (selected : List Item)
    (i : ℕ) : ℝ :=
  prefWeightAt st i - freqAt fs selected i

structure HiddenPref where
  feature : String
  latency : ℝ
  weight : ℝ

/-- The filtered rows of `detect_hidden_preferences`, one pass over the
feature indices: keep `pref_weight ≥ HIDDEN_MIN_WEIGHT` and
`latency ≥ HIDDEN_MIN_LATENCY`, drop `price_`-prefixed (numeric z-score)
keys, record latency and weight rounded to 4 decimals. -/
noncomputable def hiddenRows (fs : FeatureSpace) (st : PCFState) (selected : List Item) :
    List HiddenPref :=
  (List.range fs.featureIndex.length).filterMap fun idx =>
    if prefWeightAt st idx < hiddenMinWeight ∨
        latencyAt fs st selected idx < hiddenMinLatency then none
    else if strStartsWith (fs.featureIndex.getD idx "") "price_" then none
    else some
      { feature := fs.featureIndex.getD idx ""
        latency := roundTo4 (latencyAt fs st selected idx)
        weight := roundTo4 (prefWeightAt st idx) }

/-- `detect_hidden_preferences(state, selected_products, top_n)`:
early-out on fewer than `HIDDEN_MIN_SELECTIONS` absorbed picks, an empty
selection list, an empty feature index or an all-zero user vector; then the
filtered rows sorted by latency descending (Python `list.sort` is stable,
as is `insertionSort`) and truncated to `top_n`. -/
noncomputable def detectHiddenPreferences (fs : FeatureSpace) (st : PCFState)
    (selected : List Item) (topN : ℕ) : List HiddenPref :=
  if st.count < hiddenMinSelections ∨ selected = [] then []
  else if fs.featureIndex.length = 0 then []
  else if maxAbsVal st.userVec = 0 then []
  else
    ((hiddenRows fs st selected).insertionSort
      (fun a b => b.latency ≤ a.latency)).take topN

/-! ## Prefix keys (`backend/app/ml/pbcf_nmf_mongo.py` and
`backend/app/services/recommender_mongo.py`)

Timestamps are modelled by naturals; a selection row is
`(created_at, product_id)`. -/

/-- `PBCFEngineMongo._prefix_key_for_rating`: the selections of the session
with `created_at ≤` the rating's `created_at`, sorted ascending by
`created_at`, hyphen-joined; `None` when there are none. -/
def trainingPrefixKey (selections : List (ℕ × String)) (ratingCreatedAt : ℕ) :
    Option String :=
  let before := selections.filter (fun s => s.fst ≤ ratingCreatedAt)
  let ordered := before.insertionSort (fun a b => a.fst ≤ b.fst)
  if ordered = [] then none
  else some (joinSep "-" (ordered.map Prod.snd))

/-- `RecommenderMongo.recommend` line
`current_prefix = "-".join(sorted(selected_product_ids)) if selected_product_ids else ""`:
the *set* of selected product ids in lexicographic order. -/
def currentPrefixKeyMongo (selectedProductIds : List String) : String :=
  let distinct := selectedProductIds.dedup
  if distinct = [] then ""
  else joinSep "-" (distinct.insertionSort strLe)

/-- `prefix_key = f"current_prefix-product_id" if current_prefix else str(product.id)`. -/
def pbcfLookupKey (currentKey : String) (productId : String) : String :=
  if currentKey = "" then productId else currentKey ++ "-" ++ productId

/-- The per-candidate scoring step of `RecommenderMongo.recommend`: the PBCF
prediction under the lookup key when present, else the content-based
`score_item`. -/
noncomputable def recommendCandidateScore (predictedRatings : List (String × ℝ))
    (currentKey : String) (productId : String) (st : PCFState) (vec : List ℝ) : ℝ :=
  match (predictedRatings.find? (fun kv => kv.fst == pbcfLookupKey currentKey productId)) with
  | some kv => kv.snd
  | none => scoreItem st vec

/-! ## Deterministic seeding (`GameService._rng_for`)

`seed = int(hashlib.sha256(f"game_id:round_number:salt").hexdigest()[:16], 16)`
and `random.Random(seed)`.  SHA-256 and CPython's Mersenne-Twister are
embedded bit-exactly below on naturals reduced mod 2³². -/

def w32 (x : ℕ) : ℕ := x % 4294967296

def rotr32 (n x : ℕ) : ℕ := w32 ((x >>> n) ||| (x <<< (32 - n)))

def not32 (x : ℕ) : ℕ := Nat.xor x 4294967295

/-- The SHA-256 round constants. -/
def sha256K : List ℕ :=
  [1116352408, 1899447441, 3049323471, 3921009573, 961987163,
   1508970993, 2453635748, 2870763221, 3624381080, 310598401,
   607225278, 1426881987, 1925078388, 2162078206, 2614888103,
   3248222580, 3835390401, 4022224774, 264347078, 604807628,
   770255983, 1249150122, 1555081692, 1996064986, 2554220882,
   2821834349, 2952996808, 3210313671, 3336571891, 3584528711,
   113926993, 338241895, 666307205, 773529912, 1294757372,
   1396182291, 1695183700, 1986661051, 2177026350, 2456956037,
   2730485921, 2820302411, 3259730800, 3345764771, 3516065817,
   3600352804, 4094571909, 275423344, 430227734, 506948616,
   659060556, 883997877, 958139571, 1322822218, 1537002063,
   1747873779, 1955562222, 2024104815, 2227730452, 2361852424,
   2428436474, 2756734187, 3204031479, 3329325298]

/-- The SHA-256 initial hash value. -/
def sha256H0 : List ℕ :=
  [1779033703, 3144134277, 1013904242, 2773480762, 1359893119,
   2600822924, 528734635, 1541459225]

/-- Pad a byte message: append `0x80`, zeros, and the 64-bit big-endian bit
length, to a multiple of 64 bytes. -/
def sha256Pad (msg : List ℕ) : List ℕ :=
  let len := msg.length
  let zeros := (64 - ((len + 9) % 64)) % 64
  let bitLen := len * 8
  msg ++ [0x80] ++ List.replicate zeros 0 ++
    [(bitLen >>> 56) % 256, (bitLen >>> 48) % 256, (bitLen >>> 40) % 256,
     (bitLen >>> 32) % 256, (bitLen >>> 24) % 256, (bitLen >>> 16) % 256,
     (bitLen >>> 8) % 256, bitLen % 256]

/-- Group a byte list into big-endian 32-bit words. -/
def bytesToWords : List ℕ → List ℕ
  | b0 :: b1 :: b2 :: b3 :: rest => (((b0 * 256 + b1) * 256 + b2) * 256 + b3) :: bytesToWords rest
  | _ => []

/-- Split a word list into blocks of 16 (padded input length is always a
multiple of 16, so the trailing partial-block case is never reached). -/
def wordBlocks : List ℕ → List (List ℕ)
  | w0 :: w1 :: w2 :: w3 :: w4 :: w5 :: w6 :: w7 ::
    w8 :: w9 :: w10 :: w11 :: w12 :: w13 :: w14 :: w15 :: rest =>
    [w0, w1, w2, w3, w4, w5, w6, w7, w8, w9, w10, w11, w12, w13, w14, w15] ::
      wordBlocks rest
  | _ => []

def sha256s0 (x : ℕ) : ℕ := Nat.xor (Nat.xor (rotr32 7 x) (rotr32 18 x)) (x >>> 3)
def sha256s1 (x : ℕ) : ℕ := Nat.xor (Nat.xor (rotr32 17 x) (rotr32 19 x)) (x >>> 10)
def sha256S0 (x : ℕ) : ℕ := Nat.xor (Nat.xor (rotr32 2 x) (rotr32 13 x)) (rotr32 22 x)
def sha256S1 (x : ℕ) : ℕ := Nat.xor (Nat.xor (rotr32 6 x) (rotr32 11 x)) (rotr32 25 x)

/-- Extend a 16-word block to the 64-word message schedule. -/
def sha256Schedule (block : List ℕ) : List ℕ :=
  (List.range 48).foldl
    (fun w _ =>
      let i := w.length
      w ++ [w32 (sha256s1 (w.getD (i - 2) 0) + w.getD (i - 7) 0 +
                 sha256s0 (w.getD (i - 15) 0) + w.getD (i - 16) 0)])
    block

/-- One round of the compression function on the working variables
`[a, b, c, d, e, f, g, h]`. -/
def sha256Round (vars : List ℕ) (k w : ℕ) : List ℕ :=
  match vars with
  | [a, b, c, d, e, f, g, h] =>
    let ch := Nat.xor (Nat.land e f) (Nat.land (not32 e) g)
    let temp1 := w32 (h + sha256S1 e + ch + k + w)
    let maj := Nat.xor (Nat.xor (Nat.land a b) (Nat.land a c)) (Nat.land b c)
    let temp2 := w32 (sha256S0 a + maj)
    [w32 (temp1 + temp2), a, b, c, w32 (d + temp1), e, f, g]
  | other => other

/-- Compress one block into the running hash. -/
def sha256Compress (h : List ℕ) (block : List ℕ) : List ℕ :=
  let w := sha256Schedule block
  let vars := (List.zip sha256K w).foldl (fun v kw => sha256Round v kw.fst kw.snd) h
  List.zipWith (fun x y => w32 (x + y)) h vars

/-- SHA-256 of a byte message, as eight 32-bit words. -/
def sha256Words (msg : List ℕ) : List ℕ :=
  (wordBlocks (bytesToWords (sha256Pad msg))).foldl sha256Compress sha256H0

/-- ASCII bytes of a string (every string hashed by `_rng_for` here is
ASCII, where UTF-8 encoding is the identity on code points). -/
def strBytes (s : String) : List ℕ := s.data.map Char.toNat

/-- `int(hashlib.sha256(f"game_id:round_number:salt").hexdigest()[:16], 16)`:
the first 16 hex digits are the first two big-endian words of the digest. -/
def rngSeedFor (gameId : String) (roundNumber : ℕ) (salt : String) : ℕ :=
  let words := sha256Words (strBytes (gameId ++ ":" ++ toString roundNumber ++ ":" ++ salt))
  (words.getD 0 0) * 4294967296 + words.getD 1 0

/-! ### CPython `random.Random` (MT19937)

The 624-word generator state is packed into one natural number, word `i`
occupying bits `[32·i, 32·i + 32)`; `mtGet`/`mtSet` are the array accesses
of the C code.  (A packed representation keeps kernel evaluation shallow;
it is bit-for-bit the array of `_randommodule.c`.) -/

/-- Continuation applied after evaluating `n` to a literal (the branch on
`n` sits in control position, so normalisation is forced to reduce `n`
before recursing — this keeps reduction of the long seeding loops shallow
without changing any value: both branches are the same). -/
def natCase {α : Type} (n : ℕ) (k : ℕ → α) : α := if n % 2 = 0 then k n else k n

def mtGet (m i : ℕ) : ℕ := (m >>> (32 * i)) % 4294967296

def mtSet (m i v : ℕ) : ℕ := m - (mtGet m i) <<< (32 * i) + v <<< (32 * i)

structure MTState where
  mt : ℕ
  mti : ℕ

/-- `init_genrand`: `mt[0] = s`, `mt[i] = 1812433253·(mt[i−1] ⊕ (mt[i−1] ≫ 30)) + i`. -/
def initGenrandLoop : ℕ → ℕ → ℕ → ℕ → ℕ
  | 0, _, _, acc => acc
  | fuel + 1, i, prev, acc =>
    natCase acc fun accF =>
      let v := w32 (1812433253 * (Nat.xor prev (prev >>> 30)) + i)
      initGenrandLoop fuel (i + 1) v (accF + v <<< (32 * i))

def initGenrand (s : ℕ) : ℕ := initGenrandLoop 623 1 (w32 s) (w32 s)

/-- First mixing loop of `init_by_array` (count `max(624, len(key))`). -/
def ibaLoop1 (key : List ℕ) : ℕ → ℕ → ℕ → ℕ → ℕ × ℕ
  | 0, i, _, mt => (mt, i)
  | fuel + 1, i, j, mt =>
    natCase mt fun mtF =>
      let prev := mtGet mtF (i - 1)
      let v := w32 (Nat.xor (mtGet mtF i) (w32 ((Nat.xor prev (prev >>> 30)) * 1664525)) +
                    key.getD j 0 + j)
      let mt1 := mtSet mtF i v
      let i1 := i + 1
      let j1 := j + 1
      let mt2 := if i1 ≥ 624 then mtSet mt1 0 (mtGet mt1 623) else mt1
      let i2 := if i1 ≥ 624 then 1 else i1
      let j2 := if j1 ≥ key.length then 0 else j1
      ibaLoop1 key fuel i2 j2 mt2

/-- Second mixing loop of `init_by_array` (count 623); the C subtraction
`− i` is mod 2³². -/
def ibaLoop2 : ℕ → ℕ → ℕ → ℕ
  | 0, _, mt => mt
  | fuel + 1, i, mt =>
    natCase mt fun mtF =>
      let prev := mtGet mtF (i - 1)
      let v := w32 (Nat.xor (mtGet mtF i) (w32 ((Nat.xor prev (prev >>> 30)) * 1566083941)) +
                    4294967296 - i)
      let mt1 := mtSet mtF i v
      let i1 := i + 1
      let mt2 := if i1 ≥ 624 then mtSet mt1 0 (mtGet mt1 623) else mt1
      let i2 := if i1 ≥ 624 then 1 else i1
      ibaLoop2 fuel i2 mt2

def initByArray (key : List ℕ) : ℕ :=
  let mt0 := initGenrand 19650218
  let p1 := ibaLoop1 key (max 624 key.length) 1 0 mt0
  let mt2 := ibaLoop2 623 p1.snd p1.fst
  mtSet mt2 0 2147483648

/-- CPython splits a nonnegative integer seed into 32-bit words,
least-significant first (`random_seed` in `_randommodule.c`). -/
def seedKeyAux : ℕ → ℕ → List ℕ
  | 0, _ => []
  | fuel + 1, n => if n = 0 then [] else (n % 4294967296) :: seedKeyAux fuel (n >>> 32)

def pyKeyOfSeed (n : ℕ) : List ℕ := if n = 0 then [0] else seedKeyAux 64 n

/-- `random.Random(seed)` for a nonnegative integer seed; after
`init_by_array` the generator index is 624 (a fresh twist is pending). -/
def mtOfSeed (n : ℕ) : MTState := { mt := initByArray (pyKeyOfSeed n), mti := 624 }

/-- The in-place MT19937 twist over the 624-word state. -/
def twistLoop : ℕ → ℕ → ℕ → ℕ
  | 0, _, mt => mt
  | fuel + 1, kk, mt =>
    natCase mt fun mtF =>
      let y := (Nat.land (mtGet mtF kk) 2147483648) |||
               (Nat.land (mtGet mtF ((kk + 1) % 624)) 2147483647)
      let v := Nat.xor (Nat.xor (mtGet mtF ((kk + 397) % 624)) (y >>> 1))
               (if y % 2 = 1 then 2567483615 else 0)
      twistLoop fuel (kk + 1) (mtSet mtF kk v)

def mtTwist (mt : ℕ) : ℕ := twistLoop 624 0 mt

/-- `genrand_uint32`: twist when exhausted, then temper. -/
def genrand (g : MTState) : ℕ × MTState :=
  let g1 := if g.mti ≥ 624 then MTState.mk (mtTwist g.mt) 0 else g
  let y0 := mtGet g1.mt g1.mti
  let y1 := Nat.xor y0 (y0 >>> 11)
  let y2 := Nat.xor y1 (Nat.land (w32 (y1 <<< 7)) 2636928640)
  let y3 := Nat.xor y2 (Nat.land (w32 (y2 <<< 15)) 4022730752)
  let y4 := Nat.xor y3 (y3 >>> 18)
  (y4, MTState.mk g1.mt (g1.mti + 1))

/-- `getrandbits(k)` for `0 < k ≤ 32`. -/
def getrandbits (k : ℕ) (g : MTState) : ℕ × MTState :=
  let r := genrand g
  (r.fst >>> (32 - k), r.snd)

/-- `int.bit_length()` (fuelled; every `n` passed here is far below `2⁶⁴`). -/
def bitLenAux : ℕ → ℕ → ℕ
  | 0, _ => 0
  | fuel + 1, n => if n = 0 then 0 else bitLenAux fuel (n >>> 1) + 1

def bitLength (n : ℕ) : ℕ := bitLenAux 64 n

/-- `Random._randbelow(n)`: draw `bit_length(n)` bits, retry while `≥ n`.
The retry loop is given ample fuel (it terminates with probability 1; no
claim depends on the fuel-exhausted branch). -/
def randbelowLoop (n k : ℕ) : ℕ → MTState → ℕ × MTState
  | 0, g => (0, g)
  | fuel + 1, g =>
    let r := getrandbits k g
    if r.fst < n then r else randbelowLoop n k fuel r.snd

def randbelow (n : ℕ) (g : MTState) : ℕ × MTState :=
  randbelowLoop n (bitLength n) 64 g

/-- Swap two positions of a list (no-op when out of range, like the source
never is). -/
def listSwap {α : Type} (l : List α) (i j : ℕ) : List α :=
  match l.get? i, l.get? j with
  | some a, some b => (l.set i b).set j a
  | _, _ => l

/-- `random.shuffle(x)`: Fisher–Yates downward,
`for i in reversed(range(1, len(x))): j = _randbelow(i + 1); swap x[i], x[j]`. -/
def pyShuffleAux {α : Type} : ℕ → List α → MTState → List α × MTState
  | 0, l, g => (l, g)
  | im1 + 1, l, g =>
    let i := im1 + 1
    let r := randbelow (i + 1) g
    pyShuffleAux im1 (listSwap l i r.fst) r.snd

def pyShuffle {α : Type} (l : List α) (g : MTState) : List α × MTState :=
  pyShuffleAux (l.length - 1) l g

/-- `GameService._rng_for(game_id, round_number, salt)`. -/
def rngFor (gameId : String) (roundNumber : ℕ) (salt : String) : MTState :=
  mtOfSeed (rngSeedFor gameId roundNumber salt)

/-! ### Onboarding pool (`GameService._diverse_onboarding_sample`) -/

/-- `p.get("price_min") or 0.0`. -/
def priceOrZero (p : Item) : ℚ := p.priceMin.getD 0

/-- `item.get("vendor") or "Unknown"` (empty strings are falsy too). -/
def vendorKey (p : Item) : String :=
  match p.vendor with
  | some v => if v = "" then "Unknown" else v
  | none => "Unknown"

/-- `by_vendor.setdefault(vendor, []).append(item)`: group while keeping the
first-seen vendor order (dict insertion order) and the in-bucket item order. -/
def groupAppend (m : List (String × List Item)) (k : String) (p : Item) :
    List (String × List Item) :=
  if m.any (fun kv => kv.fst == k) then
    m.map (fun kv => if kv.fst == k then (kv.fst, kv.snd ++ [p]) else kv)
  else m ++ [(k, [p])]

def groupByVendor (bucket : List Item) : List (String × List Item) :=
  bucket.foldl (fun m p => groupAppend m (vendorKey p) p) []

/-- `for vendor_items in by_vendor.values(): rng.shuffle(vendor_items)`,
threading the generator through the buckets in dict order. -/
def shuffleGroupVals : List (String × List Item) → MTState →
    List (String × List Item) × MTState
  | [], g => ([], g)
  | kv :: rest, g =>
    let r := pyShuffle kv.snd g
    let tail := shuffleGroupVals rest r.snd
    ((kv.fst, r.fst) :: tail.fst, tail.snd)

instance : Inhabited Item := ⟨{}⟩

/-- One sweep of `for vendor in vendor_keys` inside the `while` loop of
`round_robin_pick`: pop from the end of each nonempty vendor bucket; stop
early once the target is reached (Python's `break` discards the rest of the
sweep and, with the target reached, the `while` loop as well). -/
def rrSweep (m : List (String × List Item)) (target : ℕ) :
    List String → List Item → (List Item × List (String × List Item) × List String × Bool)
  | [], picks => (picks, m, [], false)
  | vendor :: restKeys, picks =>
    let items := ((m.find? (fun kv => kv.fst == vendor)).map Prod.snd).getD []
    if items = [] then
      let r := rrSweep m target restKeys picks
      (r.fst, r.snd.fst, r.snd.snd.fst, r.snd.snd.snd)
    else
      let picks1 := picks ++ [items.getLast!]
      let m1 := m.map (fun kv => if kv.fst == vendor then (kv.fst, kv.snd.dropLast) else kv)
      if picks1.length ≥ target then (picks1, m1, [], true)
      else
        let nextHere : List String := if items.dropLast = [] then [] else [vendor]
        let r := rrSweep m1 target restKeys picks1
        (r.fst, r.snd.fst, nextHere ++ r.snd.snd.fst, r.snd.snd.snd)

/-- The `while len(picks) < target and vendor_keys` loop. -/
def rrLoop : ℕ → List String → List (String × List Item) → List Item → ℕ → List Item
  | 0, _, _, picks, _ => picks
  | fuel + 1, keys, m, picks, target =>
    if picks.length ≥ target ∨ keys = [] then picks
    else
      let r := rrSweep m target keys picks
      if r.snd.snd.snd then r.fst
      else rrLoop fuel r.snd.snd.fst r.snd.fst r.fst target

/-- `round_robin_pick(bucket, target)` with the enclosing `rng` threaded. -/
def roundRobinPick (bucket : List Item) (target : ℕ) (g : MTState) :
    List Item × MTState :=
  let grouped := groupByVendor bucket
  let r1 := shuffleGroupVals grouped g
  let r2 := pyShuffle (r1.fst.map Prod.fst) r1.snd
  (rrLoop (bucket.length + 2) r2.fst r1.fst [] target, r2.snd)

/-- The `len(all_products) > 50` branch of `_diverse_onboarding_sample`:
seeded shuffle, price terciles by `price_min` (null as 0), vendor
round-robin per tercile, top-up from the remaining shuffled items, truncate
to 50 and shuffle. -/
def diverseSampleLarge (allProducts : List Item) (gameId : String) : List String :=
  let g0 := rngFor gameId 0 "onboarding"
  let r1 := pyShuffle allProducts g0
  let products := r1.fst
  let prices := (products.map priceOrZero).insertionSort (fun a b => a ≤ b)
  let q1 := prices.getD (prices.length / 3) 0
  let q2 := prices.getD ((2 * prices.length) / 3) 0
  let low := products.filter (fun p => decide (priceOrZero p ≤ q1))
  let mid := products.filter (fun p => decide (q1 < priceOrZero p ∧ priceOrZero p ≤ q2))
  let high := products.filter (fun p => decide (q1 < priceOrZero p ∧ q2 < priceOrZero p))
  let rLow := roundRobinPick low 17 r1.snd
  let rMid := roundRobinPick mid 17 rLow.snd
  let rHigh := roundRobinPick high 16 rMid.snd
  let chosen := rLow.fst ++ rMid.fst ++ rHigh.fst
  let chosenIds := chosen.map Item.pid
  let afterFill :=
    if chosen.length < 50 then
      let remainder := products.filter (fun p => decide (p.pid ∉ chosenIds))
      let rRem := pyShuffle remainder rHigh.snd
      (chosen ++ rRem.fst.take (50 - chosen.length), rRem.snd)
    else (chosen, rHigh.snd)
  let rFinal := pyShuffle (afterFill.fst.take 50) afterFill.snd
  rFinal.fst.map Item.pid

/-- `GameService._diverse_onboarding_sample(all_products, game_id)`.  The
`len(all_products) <= 50` early return hands back every catalog id in
catalog order — the seeded generator is only created in the larger branch. -/
def diverseOnboardingSample (allProducts : List Item) (gameId : String) : List String :=
  if allProducts.length ≤ 50 then allProducts.map Item.pid
  else diverseSampleLarge allProducts gameId

/-! ## Pick resolution (`GameService.submit_pick`, scoring core) -/

/-- The sort key of `scored.sort(key=lambda item: (item[0], str(item[1]["_id"])), reverse=True)`:
the pair (PCF score of the candidate, its id), compared lexicographically. -/
noncomputable def pickKey (fs : FeatureSpace) (st : PCFState) (p : Item) : ℝ ×ₗ String :=
  toLex (scoreItem st (fs.vectorize p), p.pid)

/-- The descending order induced by `reverse=True`: `a` may precede `b`
iff the key of `b` is at most the key of `a`. -/
def pickRel (fs : FeatureSpace) (st : PCFState) (a b : Item) : Prop :=
  pickKey fs st b ≤ pickKey fs st a

noncomputable instance (fs : FeatureSpace) (st : PCFState) :
    DecidableRel (pickRel fs st) := Classical.decRel _

/-- Strict comparison between candidate sort keys: `a` outranks `b`. -/
def pickLt (fs : FeatureSpace) (st : PCFState) (a b : Item) : Prop :=
  pickKey fs st a < pickKey fs st b

noncomputable instance (fs : FeatureSpace) (st : PCFState) :
    DecidableRel (pickLt fs st) := Classical.decRel _

structure PickOutcome where
  scored : List Item
  aiPickId : String
  aiTop3Ids : List String
  aiCorrect : Bool
  aiExact : Bool
  aiRankOfPick : ℕ
  humanPoints : ℕ
  aiPoints : ℕ

/-- The candidate-resolution core of `submit_pick` (lines 657–696): reject a
pick outside the candidate list; score every candidate with the *current*
PCF state; sort descending by `(score, id)`; derive `ai_pick`, `ai_top3_ids`,
`ai_correct`, `ai_exact`, the 1-based rank of the human pick (defaulting to
`len(scored)` when absent), and the 10-point split.  The fetched-products
map of the source is keyed by the same ids, so the two membership checks
collapse into one; the DB writes that follow all happen after this core. -/
noncomputable def resolvePick (fs : FeatureSpace) (st : PCFState) (cands : List Item)
    (pickId : String) : Except String PickOutcome :=
  if pickId ∈ cands.map Item.pid then
    let scored := cands.insertionSort (pickRel fs st)
    match scored with
    | [] => Except.error "Round has no candidates"
    | top :: _ =>
      let aiPickId := top.pid
      let aiTop3Ids := (scored.take 3).map Item.pid
      let aiCorrect := decide (pickId ∈ aiTop3Ids)
      let aiExact := decide (aiPickId = pickId)
      let ids := scored.map Item.pid
      let aiRank := if pickId ∈ ids then ids.indexOf pickId + 1 else ids.length
      Except.ok
        { scored := scored
          aiPickId := aiPickId
          aiTop3Ids := aiTop3Ids
          aiCorrect := aiCorrect
          aiExact := aiExact
          aiRankOfPick := aiRank
          humanPoints := if aiCorrect then 0 else 10
          aiPoints := if aiCorrect then 10 else 0 }
  else Except.error "Selected product is not in candidate set"

/-! ## Onboarding submission (`GameService.submit_onboarding`) -/

structure Game where
  status : String
  currentRound : ℕ
  totalRounds : ℕ
  humanScore : ℕ
  aiScore : ℕ
  modelState : Option PCFState
  onboardingPoolIds : List String
  onboardingSelectedIds : List String
  onboardingRating : Option ℤ

/-- The validation-then-commit body of `submit_onboarding`.  Every check of
the source precedes every mutation (model update, selection/rating inserts
and the `games.update_one`), so raising maps to `Except.error` with the
game untouched, and the updated game document is only produced on the `ok`
path.  `lookup` plays the role of `_get_products_by_ids`, which returns the
found products in requested-id order. -/
noncomputable def submitOnboarding (fs : FeatureSpace) (lookup : String → Option Item)
    (game : Game) (selectedProductIds : List String) (rating : ℤ) :
    Except String Game :=
  if game.onboardingSelectedIds ≠ [] then
    Except.error "Onboarding already submitted for this game"
  else if selectedProductIds.length ≠ 10 then
    Except.error "You must select exactly 10 products"
  else if selectedProductIds.dedup.length ≠ 10 then
    Except.error "Duplicate products are not allowed"
  else if game.onboardingPoolIds = [] then
    Except.error "Onboarding pool is not initialized"
  else if selectedProductIds.any (fun pid => decide (pid ∉ game.onboardingPoolIds)) then
    Except.error "Selections must come from the onboarding pool"
  else
    let selectedProducts := selectedProductIds.filterMap lookup
    if selectedProducts.length ≠ 10 then
      Except.error "One or more selected products were not found"
    else
      let state0 := game.modelState.getD (initState fs)
      let st1 := selectedProducts.foldl (fun s p => updateWithSelection fs s p false) state0
      let st2 := updateWithPrefixRating st1 rating
      Except.ok
        { game with
          status := "ready"
          modelState := some st2
          onboardingSelectedIds := selectedProductIds
          onboardingRating := some rating }

/-! ## Concrete fixtures used by the theorems below -/

/-- The fountain pen of `backend/tests/test_feature_space.py`. -/
def tfPen : Item :=
  { pid := "pen1", category := some "fountain_pens", vendor := some "Lamy",
    productType := some "Fountain Pens", tags := ["starter"],
    options := [("Nib Size", ["Fine"])], priceMin := some 25, priceMax := some 30 }

/-- The movie of `backend/tests/test_feature_space.py`. -/
def tfMovie : Item :=
  { pid := "mov1", category := some "movies", vendor := some "Warner Bros",
    primaryCountry := some "US", originalLanguage := some "en",
    genres := ["Action"], keywords := ["hero"],
    productionCompanies := ["DC Films"], directors := ["Patty Jenkins"],
    releaseYear := some 2017, runtimeMinutes := some 141,
    voteAverage := some (37 / 5), popularity := some (851 / 10) }

/-- The two-category catalog of `backend/tests/test_feature_space.py`. -/
def tfCatalog : List Item := [tfPen, tfMovie]

/-- A three-item catalog (well under the 50-item onboarding threshold). -/
def cat3 : List Item := [{ pid := "a" }, { pid := "b" }, { pid := "c" }]

/-- A state with a zero user vector, zero bias and zero count. -/
noncomputable def stZeroVec : PCFState :=
  { userVec := [0], bias := 0, count := 0, exceptionWeight := 0.35, decay := 0.85 }

/-- A state with a zero user vector and a nonzero bias. -/
noncomputable def stBias : PCFState :=
  { userVec := [0], bias := 1 / 2, count := 0, exceptionWeight := 0.35, decay := 0.85 }

/-- A fresh game still in onboarding, with a two-item pool. -/
def gameFix : Game :=
  { status := "onboarding", currentRound := 0, totalRounds := 5, humanScore := 0,
    aiScore := 0, modelState := none, onboardingPoolIds := ["a", "b"],
    onboardingSelectedIds := [], onboardingRating := none }

/-- Decidable equality for `Except`, used to state results about raising
functions. -/
def exceptDecEq {ε α : Type} [DecidableEq ε] [DecidableEq α] :
    DecidableEq (Except ε α)
  | Except.ok a, Except.ok b =>
    if h : a = b then isTrue (by rw [h]) else isFalse (by intro hh; injection hh; contradiction)
  | Except.ok _, Except.error _ => isFalse (by intro hh; exact Except.noConfusion hh)
  | Except.error _, Except.ok _ => isFalse (by intro hh; exact Except.noConfusion hh)
  | Except.error e, Except.error f =>
    if h : e = f then isTrue (by rw [h]) else isFalse (by intro hh; injection hh; contradiction)

instance {ε α : Type} [DecidableEq ε] [DecidableEq α] : DecidableEq (Except ε α) :=
  exceptDecEq

/-! # Theorems settling the claims -/

/-- C1: the claim says `FeatureSpace.build` produces the structured
`cat::…` feature grammar and a per-numeric-key statistics map with
`cat::fountain_pens::num::price_min_z` and `cat::movies::num::release_year_z`
among the numeric statistics.  Evaluated at the repository's own test
catalog (`test_feature_space.py`), the shipped `FeatureSpace.build` emits
only the legacy `vendor::`/`type::`/`tag::`/`opt::`/`price_*_z` keys and
carries a single pooled `(mean_price, std_price)` pair — there is no
numeric-statistics map at all and no `cat::` key — while the repository's
`extract_feature_tokens` (which the test suite and the claim describe) does
produce exactly the claimed numeric keys.  The code contradicts its own
test, which asserts `cat::fountain_pens::num::price_min_z ∈ fs.numeric_stats`. -/
theorem featureSpaceBuild_contradicts_own_test :
    (FeatureSpace.build tfCatalog).featureIndex =
      ["vendor::lamy", "type::fountain pens", "tag::starter", "opt::nib size::fine",
       "vendor::warner bros", "price_min_z", "price_max_z"] ∧
    "cat::fountain_pens::num::price_min_z" ∉ (FeatureSpace.build tfCatalog).featureIndex ∧
    "cat::movies::num::release_year_z" ∉ (FeatureSpace.build tfCatalog).featureIndex ∧
    (extractFeatureTokens tfPen (some "fountain_pens")).toOption.map
        (fun r => r.snd.map Prod.fst) =
      some ["cat::fountain_pens::num::price_min_z", "cat::fountain_pens::num::price_max_z"] ∧
    (extractFeatureTokens tfMovie (some "movies")).toOption.map
        (fun r => r.snd.map Prod.fst) =
      some ["cat::movies::num::release_year_z", "cat::movies::num::runtime_minutes_z",
            "cat::movies::num::vote_average_z", "cat::movies::num::popularity_z"] := by
  refine ⟨?_, ?_, ?_, ?_, ?_⟩ <;> decide

/-- C6 counterexample: the claim says `normalize(name)` returns
`fountain_pens` when the input is null *or empty*; on the empty string the
code raises *UnsupportedCategory* instead (only `None` gets the default). -/
theorem normalizeCategory_empty_is_error :
    normalizeCategory (some "") = Except.error "Unsupported category " ∧
    normalizeCategory (some "") ≠ Except.ok "fountain_pens" := by
  refine ⟨?_, ?_⟩ <;> decide

/-- C6 (amended): `normalize(name)` returns `fountain_pens` when the input
is null; for a non-null input it trims and lowercases, returns the
normalized name when that is a supported category, and fails with
*UnsupportedCategory* for every other input — including the empty string. -/
theorem normalizeCategory_amended :
    normalizeCategory none = Except.ok "fountain_pens" ∧
    (∀ s : String, strLower (strTrim s) ∈ supportedCategories →
      normalizeCategory (some s) = Except.ok (strLower (strTrim s))) ∧
    (∀ s : String, strLower (strTrim s) ∉ supportedCategories →
      normalizeCategory (some s) = Except.error ("Unsupported category " ++ s)) := by
  refine ⟨rfl, fun s h => ?_, fun s h => ?_⟩
  · simp only [normalizeCategory, if_pos h]
  · simp only [normalizeCategory, if_neg h]

/-- Witness for `normalizeCategory_amended` at concrete inputs. -/
theorem normalizeCategory_amended_witness :
    normalizeCategory (some "  Movies ") = Except.ok "movies" ∧
    normalizeCategory (some "books") = Except.error "Unsupported category books" := by
  constructor
  · have h := normalizeCategory_amended.2.1 "  Movies " (by decide)
    rwa [show (strLower (strTrim "  Movies ")) = "movies" from by decide] at h
  · exact normalizeCategory_amended.2.2 "books" (by decide)

set_option maxRecDepth 1000000 in
/-- C4 counterexample: the claim says that for a catalog of at most 50
items the onboarding pool is all items *shuffled with the game's seeded
RNG*.  For the three-item catalog and game id `"abc"`, the seeded stream
(SHA-256 of `"abc:0:onboarding"`, i.e. seed 3342577166140485205, driving
CPython's Mersenne-Twister shuffle) would order the pool `b, c, a`, but the
code returns the catalog order `a, b, c`: the small-catalog branch never
touches the RNG. -/
theorem diverseOnboardingSample_small_not_shuffled :
    diverseOnboardingSample cat3 "abc" = ["a", "b", "c"] ∧
    ((pyShuffle cat3 (rngFor "abc" 0 "onboarding")).fst).map Item.pid = ["b", "c", "a"] ∧
    diverseOnboardingSample cat3 "abc" ≠
      ((pyShuffle cat3 (rngFor "abc" 0 "onboarding")).fst).map Item.pid := by
  refine ⟨by decide, by decide, by decide⟩

/-- C4 (amended): for every catalog with at most 50 items the onboarding
pool construction returns all catalog items, in catalog order, without
consulting the seeded RNG. -/
theorem diverseOnboardingSample_small_catalog (allProducts : List Item) (gameId : String)
    (h : allProducts.length ≤ 50) :
    diverseOnboardingSample allProducts gameId = allProducts.map Item.pid := by
  unfold diverseOnboardingSample
  rw [if_pos h]

/-- Witness for `diverseOnboardingSample_small_catalog`. -/
theorem diverseOnboardingSample_small_catalog_witness :
    cat3.length ≤ 50 ∧ diverseOnboardingSample cat3 "zzz" = ["a", "b", "c"] :=
  ⟨by decide, (diverseOnboardingSample_small_catalog cat3 "zzz" (by decide)).trans (by decide)⟩

/-- C3: the claim says `recommend` looks the PBCF prediction up under
`current_prefix + item_id` with `current_prefix` computed from the
session's selections in stored-timestamp order — the same order used when
building the PBCF training matrix.  With two selections whose timestamp
order is `p2` then `p1`, the training side (`_prefix_key_for_rating`)
produces `"p2-p1"` and hence prediction keys extending `"p2-p1"`, while
`RecommenderMongo.recommend` joins the *lexicographically sorted* id set
into `"p1-p2"`; the two lookup keys for candidate `p3` differ, so a
prediction stored under the training key `"p2-p1-p3"` is never substituted
and the content-based `score_item` is used instead. -/
theorem recommendLookup_ignores_timestamp_order :
    trainingPrefixKey [(1, "p2"), (2, "p1")] 5 = some "p2-p1" ∧
    currentPrefixKeyMongo ["p2", "p1"] = "p1-p2" ∧
    pbcfLookupKey (currentPrefixKeyMongo ["p2", "p1"]) "p3" = "p1-p2-p3" ∧
    pbcfLookupKey "p2-p1" "p3" = "p2-p1-p3" ∧
    ("p1-p2-p3" : String) ≠ "p2-p1-p3" ∧
    (∀ (st : PCFState) (vec : List ℝ),
      recommendCandidateScore [("p2-p1-p3", 4)] (currentPrefixKeyMongo ["p2", "p1"]) "p3"
          st vec = scoreItem st vec) := by
  refine ⟨by decide, by decide, by decide, by decide, by decide, fun st vec => rfl⟩

/-! ## Clamp lemmas shared by the PCF theorems -/

lemma clamp15_bounds (x : ℝ) : 1 ≤ clamp15 x ∧ clamp15 x ≤ 5 := by
  unfold clamp15
  exact ⟨le_min (by norm_num) (le_max_left 1 x), min_le_left 5 _⟩

lemma clamp15_mono {x y : ℝ} (h : x ≤ y) : clamp15 x ≤ clamp15 y :=
  min_le_min le_rfl (max_le_max le_rfl h)

lemma clamp15_lip {x y : ℝ} (h : x ≤ y) : clamp15 y - clamp15 x ≤ y - x := by
  unfold clamp15
  have hd : 0 ≤ y - x := by linarith
  have hxy : max 1 y ≤ max 1 x + (y - x) := by
    apply max_le
    · have := le_max_left (1 : ℝ) x
      linarith
    · have := le_max_right (1 : ℝ) x
      linarith
  have h1 : min 5 (max 1 y) ≤ min 5 (max 1 x + (y - x)) := min_le_min le_rfl hxy
  have h2 : min 5 (max 1 x + (y - x)) ≤ min (5 + (y - x)) (max 1 x + (y - x)) :=
    min_le_min (by linarith) le_rfl
  have h3 : min (5 + (y - x)) (max 1 x + (y - x)) = min 5 (max 1 x) + (y - x) :=
    min_add_add_right 5 (max 1 x) (y - x)
  linarith

lemma clamp15_step (c b r : ℝ) :
    |r - clamp15 (c + (b + 0.25 * (r - clamp15 (c + b))))| ≤ |r - clamp15 (c + b)| := by
  have harg : c + (b + 0.25 * (r - clamp15 (c + b))) = (c + b) + 0.25 * (r - clamp15 (c + b)) := by
    ring
  rw [harg]
  rcases le_or_lt 0 (r - clamp15 (c + b)) with hpos | hneg
  · have hle : c + b ≤ (c + b) + 0.25 * (r - clamp15 (c + b)) := by linarith
    have hmono := clamp15_mono hle
    have hlip := clamp15_lip hle
    rw [abs_of_nonneg hpos, abs_of_nonneg (by linarith)]
    linarith
  · have hle : (c + b) + 0.25 * (r - clamp15 (c + b)) ≤ c + b := by linarith
    have hmono := clamp15_mono hle
    have hlip := clamp15_lip hle
    rw [abs_of_nonpos (by linarith : r - clamp15 (c + b) ≤ 0), abs_of_nonpos (by linarith)]
    linarith

/-- C5: for every state, `predict_prefix_rating` and `score_item` lie in
`[1, 5]`; and whenever the user vector or the item vector has zero norm,
the cosine similarity is 0 and the score is exactly
`clamp(3.0 + bias, 1.0, 5.0)`. -/
theorem pcf_rating_bounds (st : PCFState) (itemVec : List ℝ) :
    (1 ≤ predictPrefixRating st ∧ predictPrefixRating st ≤ 5) ∧
    (1 ≤ scoreItem st itemVec ∧ scoreItem st itemVec ≤ 5) ∧
    (l2norm st.userVec = 0 ∨ l2norm itemVec = 0 →
      scoreItem st itemVec = clamp15 (3 + st.bias)) := by
  refine ⟨⟨?_, ?_⟩, ⟨?_, ?_⟩, ?_⟩
  · exact (clamp15_bounds _).1
  · exact (clamp15_bounds _).2
  · exact (clamp15_bounds _).1
  · exact (clamp15_bounds _).2
  · intro h
    have hd : l2norm st.userVec * l2norm itemVec = 0 := by
      rcases h with h | h <;> rw [h] <;> ring
    show clamp15 _ = _
    rw [if_neg (by rw [hd]; exact lt_irrefl 0)]
    norm_num

/-- Witness for `pcf_rating_bounds`: a state with user vector `[0]` (zero
norm) scores any item at `clamp(3 + bias)`. -/
theorem pcf_rating_bounds_witness :
    scoreItem stBias [0] = clamp15 (3 + stBias.bias) :=
  (pcf_rating_bounds stBias [0]).2.2 (Or.inl (by simp [stBias, l2norm, sumSq]))

/-- C8 counterexample: the claim says each application of
`update_with_prefix_rating(r)` strictly decreases
`|r − predict_prefix_rating|`.  For the zero state and `r = 3` the
prediction is exactly 3, the error is 0 and stays 0: nothing decreases. -/
theorem bias_update_not_strictly_contracting :
    ¬ (|((3 : ℤ) : ℝ) - predictPrefixRating (updateWithPrefixRating stZeroVec 3)| <
       |((3 : ℤ) : ℝ) - predictPrefixRating stZeroVec|) := by
  have h0 : l2norm stZeroVec.userVec = 0 := by simp [stZeroVec, l2norm, sumSq]
  have hcl : clamp15 (3 : ℝ) = 3 := by
    unfold clamp15
    rw [max_eq_right (by norm_num : (1 : ℝ) ≤ 3)]
    exact min_eq_right (by norm_num)
  have hb : stZeroVec.bias = 0 := by simp [stZeroVec]
  have hp : predictPrefixRating stZeroVec = 3 := by
    rw [predictPrefixRating, h0, hb]
    norm_num [Real.tanh_zero, hcl]
  have hp2 : predictPrefixRating (updateWithPrefixRating stZeroVec 3) = 3 := by
    rw [predictPrefixRating]
    show clamp15 (3 + 1.5 * Real.tanh (l2norm stZeroVec.userVec / 3) +
      (stZeroVec.bias + 0.25 * (((3 : ℤ) : ℝ) - predictPrefixRating stZeroVec))) = 3
    rw [h0, hb, hp]
    norm_num [Real.tanh_zero, hcl]
  rw [hp, hp2]
  simp

/-- C8 (amended): each application of `update_with_prefix_rating(r)` moves
the prediction toward `r` weakly: `|r − predict_prefix_rating|` never
increases (it decreases strictly when the error is nonzero and the
prediction unclamped, and stays put when the prediction already equals `r`
or is pinned at a clamp bound). -/
theorem bias_update_contracts (st : PCFState) (rating : ℤ) :
    |((rating : ℤ) : ℝ) - predictPrefixRating (updateWithPrefixRating st rating)| ≤
    |((rating : ℤ) : ℝ) - predictPrefixRating st| := by
  show |((rating : ℤ) : ℝ) -
      clamp15 (3 + 1.5 * Real.tanh (l2norm st.userVec / 3) +
        (st.bias + 0.25 * (((rating : ℤ) : ℝ) - predictPrefixRating st)))| ≤ _
  rw [show predictPrefixRating st =
    clamp15 (3 + 1.5 * Real.tanh (l2norm st.userVec / 3) + st.bias) from rfl]
  exact clamp15_step (3 + 1.5 * Real.tanh (l2norm st.userVec / 3)) st.bias _

/-- C10: `coherence_score` averages pairwise cosine only over the pairs in
which both vectors have nonzero norm.  (i) When every unordered pair is
degenerate (zero norm product) the function returns 0 rather than rescaling
an empty mean — note `(0 + 1) / 2 = 1/2` would result from rescaling.
(ii) On `[[1,0], [1,0], [0,0]]` the two pairs touching the zero vector are
excluded from both the sum and the pair count, so the mean over the single
surviving pair is 1 and the result is `(1+1)/2 = 1`; the reference
definition `coherenceScoreAllPairs`, which follows the spec's words and
counts a degenerate pair as similarity 0, yields `(1/3 + 1)/2 = 2/3`
instead — separating the two semantics. -/
theorem coherence_skips_degenerate_pairs :
    (∀ itemVecs : List (List ℝ),
      (∀ ab ∈ pairsOf itemVecs, l2norm ab.fst * l2norm ab.snd = 0) →
        coherenceScore itemVecs = 0) ∧
    coherenceScore [[1, 0], [1, 0], [0, 0]] = 1 ∧
    coherenceScoreAllPairs [[1, 0], [1, 0], [0, 0]] = 2 / 3 := by
  have h1 : l2norm [(1 : ℝ), 0] = 1 := by simp [l2norm, sumSq]
  have h0 : l2norm [(0 : ℝ), 0] = 0 := by simp [l2norm, sumSq]
  refine ⟨?_, ?_, ?_⟩
  · intro vs h
    have hc : coherenceContribs vs = [] := by
      unfold coherenceContribs
      rw [List.filterMap_eq_nil_iff]
      intro ab hab
      rw [if_pos (h ab hab)]
    by_cases hl : vs.length < 2
    · simp [coherenceScore, hl]
    · simp [coherenceScore, hl, hc]
  · have hpairs : pairsOf [[(1 : ℝ), 0], [1, 0], [0, 0]] =
        [([1, 0], [1, 0]), ([1, 0], [0, 0]), ([1, 0], [0, 0])] := by
      simp [pairsOf]
    have hc : coherenceContribs [[(1 : ℝ), 0], [1, 0], [0, 0]] = [1] := by
      unfold coherenceContribs
      rw [hpairs]
      norm_num [h1, h0, dotList, List.filterMap_cons, List.filterMap_nil, List.zipWith]
    simp [coherenceScore, hc]
  · unfold coherenceScoreAllPairs
    norm_num [pairsOf, h1, h0, dotList, List.zipWith]

/-- Witness for `coherence_skips_degenerate_pairs` at the all-zero list. -/
theorem coherence_skips_degenerate_pairs_witness :
    coherenceScore [[(0 : ℝ)], [0]] = 0 := by
  apply coherence_skips_degenerate_pairs.1 [[(0 : ℝ)], [0]]
  intro ab hab
  have h00 : l2norm [(0 : ℝ)] = 0 := by simp [l2norm, sumSq]
  have : ab = ([(0 : ℝ)], [0]) := by simpa [pairsOf] using hab
  rw [this, h00]
  norm_num

/-- C7: `submit_onboarding` with a selection list of the wrong size, with
duplicates, or containing an id outside the onboarding pool is rejected
with a `ValueError`.  In the source every such check precedes every
mutation (model update, selection/rating inserts, `games.update_one`), so a
rejection leaves the game document — status, model_state, onboarding
fields, selections and ratings — exactly as it was; the embedding reflects
this by producing an updated `Game` only on the `ok` path. -/
theorem submitOnboarding_rejects_invalid (fs : FeatureSpace) (lookup : String → Option Item)
    (game : Game) (ids : List String) (rating : ℤ)
    (h : ids.length ≠ 10 ∨ ¬ ids.Nodup ∨ ∃ pid ∈ ids, pid ∉ game.onboardingPoolIds) :
    ∃ msg, submitOnboarding fs lookup game ids rating = Except.error msg := by
  unfold submitOnboarding
  split_ifs with h1 h2 h3 h4 h5 <;> try exact ⟨_, rfl⟩
  exfalso
  rcases h with hlen | hdup | ⟨pid, hmem, hout⟩
  · exact h2 hlen
  · have hlen10 : ids.length = 10 := not_ne_iff.mp h2
    have hdlen : ids.dedup.length = 10 := not_ne_iff.mp h3
    have hsub : ids.dedup.Sublist ids := List.dedup_sublist ids
    have heq : ids.dedup = ids := hsub.eq_of_length (by rw [hlen10, hdlen])
    exact hdup (heq ▸ List.nodup_dedup ids)
  · apply h5
    rw [List.any_eq_true]
    exact ⟨pid, hmem, by simpa using hout⟩

/-- Witness for `submitOnboarding_rejects_invalid`: a single-id submission
(wrong size) is rejected. -/
theorem submitOnboarding_rejects_invalid_witness :
    ∃ msg, submitOnboarding (FeatureSpace.build []) (fun _ => none) gameFix ["a"] 3 =
      Except.error msg :=
  submitOnboarding_rejects_invalid (FeatureSpace.build []) (fun _ => none) gameFix ["a"] 3
    (Or.inl (by decide))

/-! ## Rounding lemmas shared by the hidden-preference theorem -/

lemma roundTo4_mono {x y : ℝ} (h : x ≤ y) : roundTo4 x ≤ roundTo4 y := by
  unfold roundTo4
  have hr : round (x * 10000) ≤ round (y * 10000) := by
    rw [round_eq, round_eq]
    exact Int.floor_mono (by linarith)
  have : ((round (x * 10000) : ℤ) : ℝ) ≤ ((round (y * 10000) : ℤ) : ℝ) := by
    exact_mod_cast hr
  linarith

lemma roundTo4_minWeight : roundTo4 hiddenMinWeight = hiddenMinWeight := by
  unfold roundTo4 hiddenMinWeight
  rw [show ((0.15 : ℝ) * 10000) = ((1500 : ℤ) : ℝ) by norm_num, round_intCast]
  norm_num

lemma roundTo4_minLatency : roundTo4 hiddenMinLatency = hiddenMinLatency := by
  unfold roundTo4 hiddenMinLatency
  rw [show ((0.10 : ℝ) * 10000) = ((1000 : ℤ) : ℝ) by norm_num, round_intCast]
  norm_num

/-- C9: `detect_hidden_preferences` returns `[]` whenever fewer than
`HIDDEN_MIN_SELECTIONS = 3` picks were absorbed, the selected-items list is
empty, or the user vector is all zeros (`max |user_vec| = 0`); every
returned entry comes from a feature index whose raw normalized weight is
`≥ HIDDEN_MIN_WEIGHT = 0.15` and raw latency is `≥ HIDDEN_MIN_LATENCY =
0.10` (the reported, 4-decimal-rounded values also respect both bounds),
the numeric z-score keys `price_min_z` / `price_max_z` are skipped, the
reported latency and weight are the raw values rounded to 4 decimals, and
the result is sorted by latency descending and truncated to `top_n`. -/
theorem detectHidden_spec (fs : FeatureSpace) (st : PCFState) (selected : List Item)
    (topN : ℕ) :
    (st.count < hiddenMinSelections ∨ selected = [] ∨ maxAbsVal st.userVec = 0 →
      detectHiddenPreferences fs st selected topN = []) ∧
    (∀ e ∈ detectHiddenPreferences fs st selected topN,
      ∃ i, i < fs.featureIndex.length ∧
        e.feature = fs.featureIndex.getD i "" ∧
        e.latency = roundTo4 (latencyAt fs st selected i) ∧
        e.weight = roundTo4 (prefWeightAt st i) ∧
        hiddenMinWeight ≤ prefWeightAt st i ∧
        hiddenMinLatency ≤ latencyAt fs st selected i ∧
        hiddenMinWeight ≤ e.weight ∧
        hiddenMinLatency ≤ e.latency ∧
        strStartsWith e.feature "price_" = false ∧
        e.feature ≠ "price_min_z" ∧ e.feature ≠ "price_max_z") ∧
    (detectHiddenPreferences fs st selected topN).Pairwise
      (fun a b => b.latency ≤ a.latency) ∧
    (detectHiddenPreferences fs st selected topN).length ≤ topN := by
  refine ⟨?_, ?_, ?_, ?_⟩
  · intro h
    unfold detectHiddenPreferences
    rcases h with h | h | h
    · rw [if_pos (Or.inl h)]
    · rw [if_pos (Or.inr h)]
    · split_ifs with hA hB <;> rfl
  · intro e he
    unfold detectHiddenPreferences at he
    split_ifs at he with hA hB hC
    · simp at he
    · simp at he
    · simp at he
    · have hmem1 : e ∈ (hiddenRows fs st selected).insertionSort
          (fun a b => b.latency ≤ a.latency) := List.mem_of_mem_take he
      have hmem2 : e ∈ hiddenRows fs st selected :=
        (List.perm_insertionSort _ _).subset hmem1
      unfold hiddenRows at hmem2
      rw [List.mem_filterMap] at hmem2
      obtain ⟨idx, hidx, heq⟩ := hmem2
      rw [List.mem_range] at hidx
      split_ifs at heq with hfilter hprice
      have hnotlt := hfilter
      push_neg at hnotlt
      rw [Option.some_inj] at heq
      refine ⟨idx, hidx, ?_, ?_, ?_, hnotlt.1, hnotlt.2, ?_, ?_, ?_, ?_, ?_⟩
      · rw [← heq]
      · rw [← heq]
      · rw [← heq]
      · rw [← heq]
        calc hiddenMinWeight = roundTo4 hiddenMinWeight := roundTo4_minWeight.symm
          _ ≤ roundTo4 (prefWeightAt st idx) := roundTo4_mono hnotlt.1
      · rw [← heq]
        calc hiddenMinLatency = roundTo4 hiddenMinLatency := roundTo4_minLatency.symm
          _ ≤ roundTo4 (latencyAt fs st selected idx) := roundTo4_mono hnotlt.2
      · rw [← heq]
        exact Bool.not_eq_true _ ▸ (by simpa using hprice)
      · intro hbad
        apply hprice
        rw [← heq] at hbad
        have hf : fs.featureIndex.getD idx "" = "price_min_z" := hbad
        rw [hf]
        decide
      · intro hbad
        apply hprice
        rw [← heq] at hbad
        have hf : fs.featureIndex.getD idx "" = "price_max_z" := hbad
        rw [hf]
        decide
  · unfold detectHiddenPreferences
    split_ifs
    any_goals exact List.Pairwise.nil
    haveI : IsTotal HiddenPref (fun a b => b.latency ≤ a.latency) :=
      ⟨fun a b => le_total b.latency a.latency⟩
    haveI : IsTrans HiddenPref (fun a b => b.latency ≤ a.latency) :=
      ⟨fun _ _ _ hab hbc => le_trans hbc hab⟩
    exact (List.sorted_insertionSort _ _).sublist (List.take_sublist _ _)
  · unfold detectHiddenPreferences
    split_ifs <;> simp

/-- Witness for `detectHidden_spec`: the empty selection list yields no
hidden preferences. -/
theorem detectHidden_spec_witness :
    detectHiddenPreferences (FeatureSpace.build []) stZeroVec [] 6 = [] :=
  (detectHidden_spec (FeatureSpace.build []) stZeroVec [] 6).1 (Or.inr (Or.inl rfl))

/-! ## List lemmas shared by the pick-resolution theorem -/

lemma indexOf_append_cons {α : Type} [DecidableEq α] (xs ys : List α) (a : α)
    (h : a ∉ xs) : (xs ++ a :: ys).indexOf a = xs.length := by
  induction xs with
  | nil => simp [List.indexOf_cons_self]
  | cons b t ih =>
    have hb : b ≠ a := fun hba => h (hba ▸ List.mem_cons_self b t)
    have ht : a ∉ t := fun hmem => h (List.mem_cons_of_mem b hmem)
    simp only [List.cons_append, List.indexOf_cons_ne _ hb, ih ht, List.length_cons,
      Nat.succ_eq_add_one]

lemma mem_take_append_iff {α : Type} [DecidableEq α] (xs ys : List α) (a : α)
    (h : a ∉ xs) (n : ℕ) : a ∈ (xs ++ a :: ys).take n ↔ xs.length < n := by
  rw [List.take_append_eq_append_take]
  constructor
  · intro hm
    rcases List.mem_append.mp hm with hm | hm
    · exact absurd (List.mem_of_mem_take hm) h
    · by_contra hn
      push_neg at hn
      rw [Nat.sub_eq_zero_of_le hn] at hm
      simp at hm
  · intro hlt
    refine List.mem_append.mpr (Or.inr ?_)
    rw [show n - xs.length = (n - xs.length - 1) + 1 by omega, List.take_succ_cons]
    exact List.mem_cons_self a _

/-- C2: the candidate-resolution core of `submit_pick`.  A submitted id
outside the candidate list is rejected.  For a submitted candidate `pk`
(with candidate ids pairwise distinct, as `_build_round_candidates`
guarantees), the result scores all candidates with the current PCF state
and sorts them descending by `(score, id)`; writing `k` for the number of
candidates whose sort key strictly exceeds the human pick's key:
`ai_rank_of_pick = k + 1` (the 1-based position of the pick in the sorted
list), `ai_exact` holds iff `k = 0` (the pick *is* the top-scored
candidate), `ai_correct` holds iff `k < 3` (the pick is among the top-3
scored candidates), `human_points = 10` iff not `ai_correct` else 0, and
`ai_points = 10` iff `ai_correct` else 0. -/
theorem resolvePick_spec (fs : FeatureSpace) (st : PCFState) (cands : List Item)
    (pickId : String) (hnd : (cands.map Item.pid).Nodup) :
    (pickId ∉ cands.map Item.pid →
      resolvePick fs st cands pickId =
        Except.error "Selected product is not in candidate set") ∧
    (∀ pk ∈ cands, pk.pid = pickId →
      ∃ res, resolvePick fs st cands pickId = Except.ok res ∧
        res.scored.Perm cands ∧
        res.scored.Pairwise (pickRel fs st) ∧
        res.aiRankOfPick = cands.countP (fun c => decide (pickLt fs st pk c)) + 1 ∧
        (res.aiExact = true ↔ cands.countP (fun c => decide (pickLt fs st pk c)) = 0) ∧
        (res.aiCorrect = true ↔ cands.countP (fun c => decide (pickLt fs st pk c)) < 3) ∧
        res.humanPoints = (if res.aiCorrect then 0 else 10) ∧
        res.aiPoints = (if res.aiCorrect then 10 else 0) ∧
        (res.aiExact = true → res.aiCorrect = true)) := by
  constructor
  · intro h
    unfold resolvePick
    rw [if_neg h]
  · intro pk hmem hpid
    have hin : pickId ∈ cands.map Item.pid := hpid ▸ List.mem_map_of_mem Item.pid hmem
    haveI : IsTotal Item (pickRel fs st) :=
      ⟨fun a b => le_total (pickKey fs st b) (pickKey fs st a)⟩
    haveI : IsTrans Item (pickRel fs st) :=
      ⟨fun _ _ _ hab hbc => le_trans hbc hab⟩
    have hperm : (cands.insertionSort (pickRel fs st)).Perm cands :=
      List.perm_insertionSort _ _
    have hsorted : (cands.insertionSort (pickRel fs st)).Pairwise (pickRel fs st) :=
      List.sorted_insertionSort _ _
    have hndL : ((cands.insertionSort (pickRel fs st)).map Item.pid).Nodup :=
      ((hperm.map Item.pid).nodup_iff).mpr hnd
    have hmemL : pk ∈ cands.insertionSort (pickRel fs st) := hperm.mem_iff.mpr hmem
    obtain ⟨l1, l2, hdec⟩ := List.append_of_mem hmemL
    have hmapdec : (cands.insertionSort (pickRel fs st)).map Item.pid =
        l1.map Item.pid ++ pickId :: l2.map Item.pid := by
      rw [hdec, List.map_append, List.map_cons, hpid]
    have hnd2 : (l1.map Item.pid ++ pickId :: l2.map Item.pid).Nodup :=
      hmapdec ▸ hndL
    have hnotin1 : pickId ∉ l1.map Item.pid := by
      intro hin1
      have hdisj := (List.nodup_append.mp hnd2).2.2
      exact hdisj hin1 (List.mem_cons_self _ _)
    have hpidne1 : ∀ a ∈ l1, a.pid ≠ pickId := by
      intro a ha heq
      exact hnotin1 (heq ▸ List.mem_map_of_mem Item.pid ha)
    have hkeyeq_pid : ∀ a : Item, pickKey fs st a = pickKey fs st pk → a.pid = pk.pid := by
      intro a hk
      unfold pickKey at hk
      have := toLex.injective hk
      exact congrArg Prod.snd this
    have hgt1 : ∀ a ∈ l1, pickLt fs st pk a := by
      intro a ha
      have hp := hsorted
      rw [hdec] at hp
      have hle : pickRel fs st a pk :=
        (List.pairwise_append.mp hp).2.2 a ha pk (List.mem_cons_self _ _)
      rcases lt_or_eq_of_le hle with hlt | heq
      · exact hlt
      · exact absurd ((hkeyeq_pid a heq.symm).trans hpid) (hpidne1 a ha)
    have hnot2 : ∀ b ∈ pk :: l2, ¬ pickLt fs st pk b := by
      intro b hb
      rcases List.mem_cons.mp hb with rfl | hb2
      · exact lt_irrefl _
      · have hp := hsorted
        rw [hdec] at hp
        have hples := (List.pairwise_append.mp hp).2.1
        have hrel : pickRel fs st pk b := (List.pairwise_cons.mp hples).1 b hb2
        exact fun hlt => absurd hrel (not_le_of_lt hlt)
    have hcount : cands.countP (fun c => decide (pickLt fs st pk c)) = l1.length := by
      have h1 := List.Perm.countP_eq (fun c => decide (pickLt fs st pk c)) hperm
      rw [← h1, hdec, List.countP_append]
      have hl1 : l1.countP (fun c => decide (pickLt fs st pk c)) = l1.length :=
        List.countP_eq_length.mpr (fun a ha => decide_eq_true (hgt1 a ha))
      have hl2 : (pk :: l2).countP (fun c => decide (pickLt fs st pk c)) = 0 :=
        List.countP_eq_zero.mpr (fun b hb => by simpa using hnot2 b hb)
      rw [hl1, hl2]
      omega
    unfold resolvePick
    rw [if_pos hin, hdec]
    cases l1 with
    | nil =>
      simp only [List.nil_append] at hcount hdec ⊢
      refine ⟨_, rfl, ?_, ?_, ?_, ?_, ?_, rfl, rfl, ?_⟩
      · exact hdec ▸ hperm
      · exact hdec ▸ hsorted
      · show (if pickId ∈ (pk :: l2).map Item.pid then
            ((pk :: l2).map Item.pid).indexOf pickId + 1
          else ((pk :: l2).map Item.pid).length) = _
        rw [List.map_cons, hpid, if_pos (List.mem_cons_self _ _),
          List.indexOf_cons_self, hcount]
        simp
      · show decide (pk.pid = pickId) = true ↔ _
        rw [hcount]
        exact iff_of_true (decide_eq_true hpid) rfl
      · show decide (pickId ∈ ((pk :: l2).take 3).map Item.pid) = true ↔ _
        rw [hcount]
        refine iff_of_true (decide_eq_true ?_) (by norm_num)
        rw [List.take_succ_cons, List.map_cons, hpid]
        exact List.mem_cons_self _ _
      · intro _
        show decide (pickId ∈ ((pk :: l2).take 3).map Item.pid) = true
        refine decide_eq_true ?_
        rw [List.take_succ_cons, List.map_cons, hpid]
        exact List.mem_cons_self _ _
    | cons a t =>
      simp only [List.cons_append] at hdec ⊢
      have hlen1 : (a :: t).length = t.length + 1 := rfl
      refine ⟨_, rfl, ?_, ?_, ?_, ?_, ?_, rfl, rfl, ?_⟩
      · rw [hdec] at hperm
        exact hperm
      · rw [hdec] at hsorted
        exact hsorted
      · show (if pickId ∈ (a :: (t ++ pk :: l2)).map Item.pid then
            ((a :: (t ++ pk :: l2)).map Item.pid).indexOf pickId + 1
          else ((a :: (t ++ pk :: l2)).map Item.pid).length) = _
        have hmap2 : (a :: (t ++ pk :: l2)).map Item.pid =
            (a :: t).map Item.pid ++ pickId :: l2.map Item.pid := by
          simp only [List.map_cons, List.map_append, List.cons_append, hpid]
        rw [hmap2, if_pos (by
          exact List.mem_append.mpr (Or.inr (List.mem_cons_self _ _))),
          indexOf_append_cons _ _ _ hnotin1, hcount]
        simp
      · show decide (a.pid = pickId) = true ↔ _
        rw [hcount]
        refine iff_of_false ?_ ?_
        · simp only [decide_eq_true_eq]
          exact hpidne1 a (List.mem_cons_self _ _)
        · rw [hlen1]
          omega
      · show decide (pickId ∈ ((a :: (t ++ pk :: l2)).take 3).map Item.pid) = true ↔ _
        rw [hcount]
        have hmap3 : ((a :: (t ++ pk :: l2)).take 3).map Item.pid =
            ((a :: t).map Item.pid ++ pickId :: l2.map Item.pid).take 3 := by
          rw [List.map_take]
          congr 1
          simp only [List.map_cons, List.map_append, List.cons_append, hpid]
        rw [hmap3, decide_eq_true_eq, mem_take_append_iff _ _ _ hnotin1,
          List.length_map]
      · intro hex
        exfalso
        rw [decide_eq_true_eq] at hex
        exact hpidne1 a (List.mem_cons_self _ _) hex

/-- Witness for `resolvePick_spec` on a concrete two-candidate round: an
id outside the candidate list is rejected, and submitting candidate `x`
produces a result whose rank obeys the count characterization. -/
theorem resolvePick_spec_witness :
    resolvePick (FeatureSpace.build []) stZeroVec [{ pid := "x" }, { pid := "y" }] "q" =
      Except.error "Selected product is not in candidate set" ∧
    ∃ res,
      resolvePick (FeatureSpace.build []) stZeroVec [{ pid := "x" }, { pid := "y" }] "x" =
        Except.ok res ∧
      res.aiRankOfPick =
        ([{ pid := "x" }, { pid := "y" }] : List Item).countP
          (fun c => decide (pickLt (FeatureSpace.build []) stZeroVec { pid := "x" } c)) + 1 := by
  constructor
  · exact (resolvePick_spec (FeatureSpace.build []) stZeroVec
      [{ pid := "x" }, { pid := "y" }] "q" (by decide)).1 (by decide)
  · obtain ⟨res, hres, _, _, hrank, _⟩ :=
      (resolvePick_spec (FeatureSpace.build []) stZeroVec
        [{ pid := "x" }, { pid := "y" }] "x" (by decide)).2
        { pid := "x" } (List.mem_cons_self _ _) rfl
    exact ⟨res, hres, hrank⟩
